import Mathlib

set_option maxHeartbeats 1000000

/- Shallow embedding of src/install.py (AI CLI installer, v2.5).
   Strings are modelled at the character-list level; the regular expressions of
   the source are modelled by the equivalent explicit character scans. -/

abbrev Version := Nat × Nat × Nat

/-- Python tuple comparison `a < b` on three-component version tuples
(lexicographic), as used by `sorted(..., key=parse_version)` and the
`installed_ver >= latest_ver` test in `main`. -/
def verLt (a b : Version) : Bool :=
  decide (a.1 < b.1 ∨ (a.1 = b.1 ∧ (a.2.1 < b.2.1 ∨ (a.2.1 = b.2.1 ∧ a.2.2 < b.2.2))))

def startsWithL : List Char → List Char → Bool
  | [], _ => true
  | _ :: _, [] => false
  | p :: ps, c :: cs => (p == c) && startsWithL ps cs

def endsWithL (sfx s : List Char) : Bool :=
  startsWithL sfx.reverse s.reverse

/-- Embeds `re.sub(r"-(arm64|arm|aarch64|armv7l)$", "", name)` of
`parse_version`.  The four alternatives have pairwise distinct final
characters (or incompatible tails), so at most one can match at the end of
the string and the test order is immaterial. -/
def stripArchSuffix (s : List Char) : List Char :=
  if endsWithL ("-arm64".data) s = true then s.take (s.length - 6)
  else if endsWithL ("-aarch64".data) s = true then s.take (s.length - 8)
  else if endsWithL ("-armv7l".data) s = true then s.take (s.length - 7)
  else if endsWithL ("-arm".data) s = true then s.take (s.length - 4)
  else s

/-- Value of a (non-empty, all-digit) group, as Python `int` reads it. -/
def digitsToNat (ds : List Char) : Nat :=
  ds.foldl (fun acc c => acc * 10 + (c.toNat - 48)) 0

/-- Match of `(\d+)\.(\d+)(?:\.(\d+))?` anchored at the start of `cs`:
a maximal digit run, a dot, a second maximal digit run, and optionally a dot
followed by a third digit run (the missing patch group defaults to 0). -/
def matchVersionAt (cs : List Char) : Option Version :=
  if cs.takeWhile Char.isDigit = [] then none
  else
    match cs.dropWhile Char.isDigit with
    | [] => none
    | c1 :: rest2 =>
      if c1 = '.' then
        if rest2.takeWhile Char.isDigit = [] then none
        else
          match rest2.dropWhile Char.isDigit with
          | [] =>
            some (digitsToNat (cs.takeWhile Char.isDigit),
                  digitsToNat (rest2.takeWhile Char.isDigit), 0)
          | c2 :: rest4 =>
            if c2 = '.' then
              if rest4.takeWhile Char.isDigit = [] then
                some (digitsToNat (cs.takeWhile Char.isDigit),
                      digitsToNat (rest2.takeWhile Char.isDigit), 0)
              else
                some (digitsToNat (cs.takeWhile Char.isDigit),
                      digitsToNat (rest2.takeWhile Char.isDigit),
                      digitsToNat (rest4.takeWhile Char.isDigit))
            else
              some (digitsToNat (cs.takeWhile Char.isDigit),
                    digitsToNat (rest2.takeWhile Char.isDigit), 0)
      else none

/-- Leftmost match of the version pattern, as `re.search` finds it. -/
def findVersion : List Char → Option Version
  | [] => none
  | c :: cs =>
    match matchVersionAt (c :: cs) with
    | some v => some v
    | none => findVersion cs

def parseVersionL (s : List Char) : Version :=
  match findVersion (stripArchSuffix s) with
  | some v => v
  | none => (0, 0, 0)

/-- `parse_version` of install.py: strip a trailing architecture suffix, then
extract the first `major.minor[.patch]` pattern; `(0,0,0)` when none. -/
def parse_version (s : String) : Version := parseVersionL s.data

/-- Decimal digits of a natural number, structurally recursive on a fuel
bound (any `fuel > n` yields the full representation). -/
def natReprAux : Nat → Nat → List Char
  | 0, _ => []
  | fuel + 1, n =>
    if n < 10 then [Char.ofNat (48 + n)]
    else natReprAux fuel (n / 10) ++ [Char.ofNat (48 + n % 10)]

/-- Decimal representation of a natural number, as Python `str(int)`. -/
def natRepr (n : Nat) : List Char := natReprAux (n + 1) n

def versionStrL (v : Version) : List Char :=
  natRepr v.1 ++ '.' :: (natRepr v.2.1 ++ '.' :: natRepr v.2.2)

/-- `version_str` of install.py: `".".join(str(x) for x in tup)`. -/
def version_str (v : Version) : String := String.mk (versionStrL v)

/-- ASCII lowering of one character, as `str.lower()` acts on ASCII. -/
def lowerChar (c : Char) : Char :=
  if 'A' ≤ c ∧ c ≤ 'Z' then Char.ofNat (c.toNat + 32) else c

def lowerStr (s : String) : String := String.mk (s.data.map lowerChar)

def isSpaceChar (c : Char) : Bool :=
  c == ' ' || c == '\t' || c == '\n' || c == '\r'

/-- Python `str.strip()` on both ends. -/
def trimL (s : List Char) : List Char :=
  ((s.dropWhile isSpaceChar).reverse.dropWhile isSpaceChar).reverse

/-- The declining answers of the confirmation prompt:
`ans.strip().lower() in ("n", "no")`. -/
def isNoAnswer (answer : String) : Bool :=
  ((trimL answer.data).map lowerChar == "n".data) ||
  ((trimL answer.data).map lowerChar == "no".data)

/-- `detect_arch` of install.py: `platform.machine().lower()` is normalized;
the final line is `return machine or "unknown"`. -/
def detect_arch (machineRaw : String) : String :=
  if lowerStr machineRaw = "x86_64" ∨ lowerStr machineRaw = "amd64" then "x86_64"
  else if lowerStr machineRaw = "arm64" ∨ lowerStr machineRaw = "aarch64" then "arm64"
  else if startsWithL "armv7".data (lowerStr machineRaw).data = true then "armv7l"
  else if lowerStr machineRaw = "" then "unknown"
  else lowerStr machineRaw

/-- A candidate build file: `p.name.startswith("main-v")` (`VERSION_GLOB`). -/
def isCandidateName (n : String) : Bool := startsWithL "main-v".data n.data

/-- Filter of `arm64_scripts`: `re.search(r"-(arm64|aarch64)$", p.name)`. -/
def isArm64Name (n : String) : Bool :=
  endsWithL "-arm64".data n.data || endsWithL "-aarch64".data n.data

/-- Exclusion filter of `generic_scripts`:
`re.search(r"-(arm64|aarch64|armv7l)$", p.name)`. -/
def isArchTaggedName (n : String) : Bool :=
  isArm64Name n || endsWithL "-armv7l".data n.data

/-- `sorted(candidates, key=lambda p: parse_version(p.name), reverse=True)[0]`:
the stable descending sort puts the first-listed candidate of maximal parsed
version in front. -/
def selectBest (x : String) (xs : List String) : String :=
  xs.foldl (fun best y =>
    if verLt (parse_version best) (parse_version y) = true then y else best) x

/-- The `candidates` list of `find_script_for_arch`: the arm64-tagged scripts
when the target is arm64 and some exist, otherwise
`generic_scripts or all_scripts`. -/
def eligibleCandidates (all_scripts : List String) (arch : String) : List String :=
  if arch = "arm64" ∧ all_scripts.filter isArm64Name ≠ [] then
    all_scripts.filter isArm64Name
  else if all_scripts.filter (fun n => !isArchTaggedName n) = [] then
    all_scripts
  else
    all_scripts.filter (fun n => !isArchTaggedName n)

inductive InstallError where
  | noBuildFound
  deriving DecidableEq, Repr

/-- `find_script_for_arch` of install.py: `repoFiles` is the listing of the
regular files of the cloned directory; raises `FileNotFoundError` (modelled as
`InstallError.noBuildFound`) when no file name starts with `main-v`. -/
def find_script_for_arch (repoFiles : List String) (arch : String) :
    Except InstallError String :=
  match repoFiles.filter isCandidateName with
  | [] => .error .noBuildFound
  | a :: as =>
    match eligibleCandidates (a :: as) arch with
    | [] => .error .noBuildFound
    | c :: cs => .ok (selectBest c cs)

inductive Decision where
  | freshInstall
  | upToDate
  | newerInstalledThanRemote
  | upgradeAvailable
  | forcedReinstall
  | requiresConfirmation
  | skipped
  deriving DecidableEq, Repr

structure Args where
  force : Bool
  update : Bool
  dryRun : Bool
  noDeps : Bool
  deriving DecidableEq, Repr

structure RunResult where
  decision : Decision
  selected : String
  latestVer : Version
  prompted : Bool
  uninstallArg : List String
  removed : List String
  written : Option String
  deriving DecidableEq, Repr

/-- The prompt gate of `main`:
`installed_ver != (0, 0, 0) and not args.update and not args.force and not dry`. -/
def needsPrompt (iv : Version) (args : Args) : Bool :=
  decide (iv ≠ (0, 0, 0)) && !args.update && !args.force && !args.dryRun

/-- The decision-and-transition part of `main` after the latest build is
known: the up-to-date early return, the confirmation prompt, then
uninstall of every discovered instance followed by the install step.
`removed`/`written` record the filesystem mutations actually performed
(none under `--dry-run`), `uninstallArg` what is passed to `uninstall`. -/
def decideAndTransition (existing : List String) (iv : Version) (args : Args)
    (answer : String) (latest : String) (lv : Version) : RunResult :=
  if verLt iv lv = false ∧ args.force = false then
    { decision := if iv = lv then .upToDate else .newerInstalledThanRemote,
      selected := latest, latestVer := lv, prompted := false,
      uninstallArg := [], removed := [], written := none }
  else if needsPrompt iv args = true ∧ isNoAnswer answer = true then
    { decision := .skipped, selected := latest, latestVer := lv,
      prompted := true, uninstallArg := [], removed := [], written := none }
  else
    { decision :=
        if existing = [] then .freshInstall
        else if args.force = true then .forcedReinstall
        else if needsPrompt iv args = true then .requiresConfirmation
        else .upgradeAvailable,
      selected := latest, latestVer := lv, prompted := needsPrompt iv args,
      uninstallArg := existing,
      removed := if args.dryRun = true then [] else existing,
      written := if args.dryRun = true then none else some latest }

/-- Step 2 of `main`: under `--dry-run` the latest version is hardcoded to
`(2,6,0)` with a synthetic name; otherwise `find_script_for_arch` runs on the
clone. -/
def selectLatest (dryRun : Bool) (repoFiles : List String) (arch : String) :
    Except InstallError (String × Version) :=
  if dryRun = true then
    .ok ((if arch = "arm64" then "main-v2.6-arm64" else "main-v2.6"), (2, 6, 0))
  else
    match find_script_for_arch repoFiles arch with
    | .error e => .error e
    | .ok n => .ok (n, parse_version n)

/-- `main` of install.py (without `--check`): `existing` is the list returned
by `find_existing_installs`, `probe` is `detect_installed_version`, `answer`
the reply to the confirmation prompt.  Only the head of `existing` is ever
probed. -/
def mainRun (existing : List String) (probe : String → Version)
    (repoFiles : List String) (arch : String) (args : Args)
    (answer : String) : Except InstallError RunResult :=
  match selectLatest args.dryRun repoFiles arch with
  | .error e => .error e
  | .ok (latest, lv) =>
    .ok (decideAndTransition existing
          (match existing with | [] => (0, 0, 0) | p :: _ => probe p)
          args answer latest lv)

/-- The `__main__` wrapper: an uncaught exception prints the message and exits
with status 1; a normal return exits with status 0. -/
def programExit (existing : List String) (probe : String → Version)
    (repoFiles : List String) (arch : String) (args : Args)
    (answer : String) : Nat :=
  match mainRun existing probe repoFiles arch args answer with
  | .ok _ => 0
  | .error _ => 1

/-- Filesystem mutations of a finished run: instances removed and artifact
written. -/
def runFsEffects (e : Except InstallError RunResult) : List String × Option String :=
  match e with
  | .error _ => ([], none)
  | .ok r => (r.removed, r.written)

/- ── Helper lemmas ── -/

lemma verLt_eq_true_iff (a b : Version) :
    verLt a b = true ↔
      (a.1 < b.1 ∨ (a.1 = b.1 ∧ (a.2.1 < b.2.1 ∨ (a.2.1 = b.2.1 ∧ a.2.2 < b.2.2)))) := by
  simp [verLt]

lemma verLt_eq_false_iff (a b : Version) :
    verLt a b = false ↔
      ¬(a.1 < b.1 ∨ (a.1 = b.1 ∧ (a.2.1 < b.2.1 ∨ (a.2.1 = b.2.1 ∧ a.2.2 < b.2.2)))) := by
  simp [verLt]

lemma verLt_irrefl (a : Version) : verLt a a = false := by
  obtain ⟨x, y, z⟩ := a
  rw [verLt_eq_false_iff]
  omega

lemma verLt_zero_of_ne {b : Version} (h : b ≠ (0, 0, 0)) : verLt (0, 0, 0) b = true := by
  obtain ⟨x, y, z⟩ := b
  have h' : ¬(x = 0 ∧ y = 0 ∧ z = 0) := by
    rintro ⟨rfl, rfl, rfl⟩
    exact h rfl
  rw [verLt_eq_true_iff]
  show 0 < x ∨ (0 = x ∧ (0 < y ∨ (0 = y ∧ 0 < z)))
  omega

lemma not_lt_of_not_lt_of_lt {r z x : Version}
    (h1 : verLt r z = false) (h2 : verLt x z = true) : verLt r x = false := by
  obtain ⟨r1, r2, r3⟩ := r; obtain ⟨z1, z2, z3⟩ := z; obtain ⟨x1, x2, x3⟩ := x
  rw [verLt_eq_false_iff] at h1 ⊢
  rw [verLt_eq_true_iff] at h2
  omega

lemma not_lt_trans {r x z : Version}
    (h1 : verLt r x = false) (h2 : verLt x z = false) : verLt r z = false := by
  obtain ⟨r1, r2, r3⟩ := r; obtain ⟨z1, z2, z3⟩ := z; obtain ⟨x1, x2, x3⟩ := x
  rw [verLt_eq_false_iff] at h1 h2 ⊢
  omega

lemma selectBest_cons (x z : String) (zs : List String) :
    selectBest x (z :: zs) =
      selectBest (if verLt (parse_version x) (parse_version z) = true then z else x) zs := rfl

lemma selectBest_mem (x : String) (xs : List String) : selectBest x xs ∈ x :: xs := by
  induction xs generalizing x with
  | nil => simp [selectBest]
  | cons z zs ih =>
    rw [selectBest_cons]
    have h := ih (if verLt (parse_version x) (parse_version z) = true then z else x)
    rcases List.mem_cons.mp h with h1 | h1
    · rw [h1]
      split
      · simp
      · simp
    · simp [List.mem_cons]
      right; right
      exact h1

lemma selectBest_not_lt (x : String) (xs : List String) :
    ∀ y ∈ x :: xs, verLt (parse_version (selectBest x xs)) (parse_version y) = false := by
  induction xs generalizing x with
  | nil =>
    intro y hy
    rcases List.mem_cons.mp hy with rfl | h
    · exact verLt_irrefl _
    · simp at h
  | cons z zs ih =>
    intro y hy
    rw [selectBest_cons]
    by_cases hxz : verLt (parse_version x) (parse_version z) = true
    · rw [if_pos hxz]
      rcases List.mem_cons.mp hy with h1 | hy'
      · rw [h1]
        exact not_lt_of_not_lt_of_lt (ih z z (by simp)) hxz
      · exact ih z y hy'
    · have hxz' : verLt (parse_version x) (parse_version z) = false :=
        Bool.eq_false_iff.mpr hxz
      rw [if_neg hxz]
      rcases List.mem_cons.mp hy with h1 | hy'
      · rw [h1]
        exact ih x x (by simp)
      · rcases List.mem_cons.mp hy' with h2 | hy''
        · rw [h2]
          exact not_lt_trans (ih x x (by simp)) hxz'
        · exact ih x y (by simp [hy''])

lemma find_script_eq_err {files : List String} {arch : String}
    (hall : files.filter isCandidateName = []) :
    find_script_for_arch files arch = .error .noBuildFound := by
  unfold find_script_for_arch
  split
  · rfl
  · next a as heq => rw [hall] at heq; cases heq

lemma find_script_eq_ok {files : List String} {arch : String} {a : String}
    {as : List String} (hall : files.filter isCandidateName = a :: as)
    {c : String} {cs : List String}
    (helig : eligibleCandidates (a :: as) arch = c :: cs) :
    find_script_for_arch files arch = .ok (selectBest c cs) := by
  unfold find_script_for_arch
  split
  · next heq => rw [hall] at heq; cases heq
  · next a' as' heq =>
    rw [hall] at heq
    injection heq with h1 h2
    subst h1; subst h2
    split
    · next heq2 => rw [helig] at heq2; cases heq2
    · next c' cs' heq2 =>
      rw [helig] at heq2
      injection heq2 with h1 h2
      subst h1; subst h2
      rfl

lemma startsWithL_iff (p s : List Char) :
    startsWithL p s = true ↔ ∃ t, s = p ++ t := by
  induction p generalizing s with
  | nil => simp [startsWithL]
  | cons x xs ih =>
    cases s with
    | nil =>
      simp only [startsWithL, List.cons_append]
      constructor
      · intro h; cases h
      · rintro ⟨t, h⟩; cases h
    | cons y ys =>
      simp only [startsWithL, Bool.and_eq_true, beq_iff_eq, ih, List.cons_append]
      constructor
      · rintro ⟨rfl, t, rfl⟩; exact ⟨t, rfl⟩
      · rintro ⟨t, h⟩
        injection h with h1 h2
        exact ⟨h1.symm, t, h2⟩

lemma endsWithL_iff (sfx s : List Char) :
    endsWithL sfx s = true ↔ ∃ t, s = t ++ sfx := by
  unfold endsWithL
  rw [startsWithL_iff]
  constructor
  · rintro ⟨t, ht⟩
    refine ⟨t.reverse, ?_⟩
    have h2 := congrArg List.reverse ht
    simpa using h2
  · rintro ⟨t, rfl⟩
    exact ⟨t.reverse, by simp⟩

lemma endsWith_mem {sfx s : List Char} {c : Char}
    (h : endsWithL sfx s = true) (hc : c ∈ sfx) : c ∈ s := by
  obtain ⟨t, rfl⟩ := (endsWithL_iff sfx s).mp h
  exact List.mem_append.mpr (Or.inr hc)

lemma digit_isDigit {d : Nat} (h : d < 10) : (Char.ofNat (48 + d)).isDigit = true := by
  interval_cases d <;> decide

lemma digit_toNat {d : Nat} (h : d < 10) : (Char.ofNat (48 + d)).toNat = 48 + d := by
  interval_cases d <;> decide

lemma digitsToNat_append (xs : List Char) (c : Char) :
    digitsToNat (xs ++ [c]) = digitsToNat xs * 10 + (c.toNat - 48) := by
  simp [digitsToNat, List.foldl_append]

lemma natReprAux_spec {fuel n : Nat} (h : n < fuel) :
    natReprAux fuel n ≠ [] ∧ (∀ c ∈ natReprAux fuel n, c.isDigit = true) ∧
      digitsToNat (natReprAux fuel n) = n := by
  induction fuel generalizing n with
  | zero => omega
  | succ fuel ih =>
    by_cases h10 : n < 10
    · simp only [natReprAux, if_pos h10]
      refine ⟨by simp, ?_, ?_⟩
      · intro c hc
        simp only [List.mem_singleton] at hc
        subst hc
        exact digit_isDigit h10
      · simp only [digitsToNat, List.foldl_cons, List.foldl_nil]
        rw [digit_toNat h10]
        omega
    · simp only [natReprAux, if_neg h10]
      have hlt : n / 10 < fuel := by
        have hd : n / 10 < n := Nat.div_lt_self (by omega) (by omega)
        omega
      obtain ⟨hne, hdig, hval⟩ := ih hlt
      refine ⟨by simp, ?_, ?_⟩
      · intro c hc
        rcases List.mem_append.mp hc with hc | hc
        · exact hdig c hc
        · simp only [List.mem_singleton] at hc
          subst hc
          exact digit_isDigit (Nat.mod_lt _ (by omega))
      · rw [digitsToNat_append, hval, digit_toNat (Nat.mod_lt _ (by omega))]
        omega

lemma natRepr_ne_nil (n : Nat) : natRepr n ≠ [] :=
  (natReprAux_spec (Nat.lt_succ_self n)).1

lemma natRepr_digits (n : Nat) : ∀ c ∈ natRepr n, c.isDigit = true :=
  (natReprAux_spec (Nat.lt_succ_self n)).2.1

lemma digitsToNat_natRepr (n : Nat) : digitsToNat (natRepr n) = n :=
  (natReprAux_spec (Nat.lt_succ_self n)).2.2

lemma versionStrL_eq (a b c : Nat) :
    versionStrL (a, b, c) = natRepr a ++ '.' :: (natRepr b ++ '.' :: natRepr c) := rfl

lemma matchVersionAt_versionStrL (v : Version) :
    matchVersionAt (versionStrL v) = some v := by
  obtain ⟨a, b, c⟩ := v
  rw [versionStrL_eq]
  unfold matchVersionAt
  rw [List.takeWhile_append_of_pos (natRepr_digits a),
      List.dropWhile_append_of_pos (natRepr_digits a),
      List.takeWhile_cons_of_neg (by decide),
      List.dropWhile_cons_of_neg (by decide),
      List.append_nil]
  rw [if_neg (natRepr_ne_nil a)]
  simp only [if_pos rfl]
  rw [List.takeWhile_append_of_pos (natRepr_digits b),
      List.dropWhile_append_of_pos (natRepr_digits b),
      List.takeWhile_cons_of_neg (by decide),
      List.dropWhile_cons_of_neg (by decide),
      List.append_nil]
  rw [if_neg (natRepr_ne_nil b)]
  simp only [if_pos rfl]
  rcases hc : natRepr c with _ | ⟨hc1, hct⟩
  · exact absurd hc (natRepr_ne_nil c)
  · rw [← hc]
    have htc : (natRepr c).takeWhile Char.isDigit = natRepr c := by
      have h2 :
          ((natRepr c ++ []).takeWhile Char.isDigit : List Char) =
            natRepr c ++ ([].takeWhile Char.isDigit) :=
        List.takeWhile_append_of_pos (natRepr_digits c)
      simpa using h2
    rw [htc, if_neg (natRepr_ne_nil c)]
    rw [digitsToNat_natRepr, digitsToNat_natRepr, digitsToNat_natRepr]
    simp

lemma findVersion_versionStrL (v : Version) : findVersion (versionStrL v) = some v := by
  have hm := matchVersionAt_versionStrL v
  obtain ⟨a, b, c⟩ := v
  rcases hn : natRepr a with _ | ⟨h1, t1⟩
  · exact absurd hn (natRepr_ne_nil a)
  · have hcons : versionStrL (a, b, c) =
        h1 :: (t1 ++ '.' :: (natRepr b ++ '.' :: natRepr c)) := by
      rw [versionStrL_eq, hn, List.cons_append]
    rw [hcons] at hm ⊢
    unfold findVersion
    rw [hm]

lemma versionStrL_chars (v : Version) :
    ∀ ch ∈ versionStrL v, ch.isDigit = true ∨ ch = '.' := by
  obtain ⟨a, b, c⟩ := v
  intro ch hch
  rw [versionStrL_eq] at hch
  rcases List.mem_append.mp hch with h1 | h1
  · exact Or.inl (natRepr_digits a ch h1)
  · rcases List.mem_cons.mp h1 with h2 | h2
    · exact Or.inr h2
    · rcases List.mem_append.mp h2 with h3 | h3
      · exact Or.inl (natRepr_digits b ch h3)
      · rcases List.mem_cons.mp h3 with h4 | h4
        · exact Or.inr h4
        · exact Or.inl (natRepr_digits c ch h4)

lemma dash_not_mem_versionStrL (v : Version) : '-' ∉ versionStrL v := by
  intro h
  rcases versionStrL_chars v '-' h with h1 | h1
  · exact absurd h1 (by decide)
  · exact absurd h1 (by decide)

lemma stripArchSuffix_versionStrL (v : Version) :
    stripArchSuffix (versionStrL v) = versionStrL v := by
  have hnd := dash_not_mem_versionStrL v
  have hfix : ∀ sfx : List Char, '-' ∈ sfx → endsWithL sfx (versionStrL v) = false := by
    intro sfx hm
    cases hE : endsWithL sfx (versionStrL v)
    · rfl
    · exact absurd (endsWith_mem hE hm) hnd
  unfold stripArchSuffix
  rw [hfix _ (by decide), hfix _ (by decide), hfix _ (by decide), hfix _ (by decide)]
  simp

lemma parseVersionL_versionStrL (v : Version) : parseVersionL (versionStrL v) = v := by
  unfold parseVersionL
  rw [stripArchSuffix_versionStrL, findVersion_versionStrL]

/- ── Claim theorems ── -/

/-- C7: for every string `s`, `version_str (parse_version s)` is a
`major.minor.patch` string made of three non-empty decimal-digit components,
and re-parsing it yields `parse_version s` (the codec is idempotent on its
own output). -/
theorem C7_codec_idempotent (s : String) :
    (∃ A B C : List Char, A ≠ [] ∧ B ≠ [] ∧ C ≠ [] ∧
        (∀ ch ∈ A, ch.isDigit = true) ∧ (∀ ch ∈ B, ch.isDigit = true) ∧
        (∀ ch ∈ C, ch.isDigit = true) ∧
        (version_str (parse_version s)).data = A ++ '.' :: (B ++ '.' :: C)) ∧
    parse_version (version_str (parse_version s)) = parse_version s := by
  constructor
  · exact ⟨natRepr (parse_version s).1, natRepr (parse_version s).2.1,
      natRepr (parse_version s).2.2, natRepr_ne_nil _, natRepr_ne_nil _,
      natRepr_ne_nil _, natRepr_digits _, natRepr_digits _, natRepr_digits _, rfl⟩
  · exact parseVersionL_versionStrL (parse_version s)

/-- C9 counterexample: the unrecognized machine string "riscv64" is not
mapped to "unknown" as the claim states; `detect_arch` returns it
unchanged. -/
theorem C9_counterexample :
    detect_arch "riscv64" = "riscv64" ∧ ("riscv64" : String) ≠ "unknown" :=
  ⟨rfl, by decide⟩

/-- C9 (amended): `detect_arch` maps recognized machine strings into the
enumeration — x86_64/amd64 to "x86_64", arm64/aarch64 to "arm64",
armv7-prefixed strings to "armv7l" — and the empty machine string to
"unknown"; every other unrecognized machine string is returned unchanged
(lowercased, preserved for diagnostics) rather than mapped to "unknown". -/
theorem C9_detect_arch_amended (m : String) :
    (lowerStr m = "x86_64" ∨ lowerStr m = "amd64" → detect_arch m = "x86_64") ∧
    (lowerStr m = "arm64" ∨ lowerStr m = "aarch64" → detect_arch m = "arm64") ∧
    (startsWithL "armv7".data (lowerStr m).data = true → detect_arch m = "armv7l") ∧
    (lowerStr m = "" → detect_arch m = "unknown") ∧
    (¬(lowerStr m = "x86_64" ∨ lowerStr m = "amd64") →
      ¬(lowerStr m = "arm64" ∨ lowerStr m = "aarch64") →
      startsWithL "armv7".data (lowerStr m).data = false →
      lowerStr m ≠ "" →
      detect_arch m = lowerStr m) := by
  refine ⟨?_, ?_, ?_, ?_, ?_⟩
  · intro h
    unfold detect_arch
    rw [if_pos h]
  · intro h
    have h1 : ¬(lowerStr m = "x86_64" ∨ lowerStr m = "amd64") := by
      rcases h with h | h <;> rw [h] <;> decide
    unfold detect_arch
    rw [if_neg h1, if_pos h]
  · intro h
    have h1 : ¬(lowerStr m = "x86_64" ∨ lowerStr m = "amd64") := by
      rintro (hx | hx) <;> rw [hx] at h <;> exact absurd h (by decide)
    have h2 : ¬(lowerStr m = "arm64" ∨ lowerStr m = "aarch64") := by
      rintro (hx | hx) <;> rw [hx] at h <;> exact absurd h (by decide)
    unfold detect_arch
    rw [if_neg h1, if_neg h2, if_pos h]
  · intro h
    have h1 : ¬(lowerStr m = "x86_64" ∨ lowerStr m = "amd64") := by
      rw [h]
      decide
    have h2 : ¬(lowerStr m = "arm64" ∨ lowerStr m = "aarch64") := by
      rw [h]
      decide
    have h3 : ¬(startsWithL "armv7".data (lowerStr m).data = true) := by
      rw [h]
      decide
    unfold detect_arch
    rw [if_neg h1, if_neg h2, if_neg h3, if_pos h]
  · intro h1 h2 h3 h0
    unfold detect_arch
    rw [if_neg h1, if_neg h2, if_neg (by simp [h3]), if_neg h0]

/-- C9 witness: the amended theorem applied at concrete machine strings, one
for each branch: recognized x86, recognized arm, armv7-prefixed, empty, and
unrecognized. -/
theorem C9_witness :
    detect_arch "AMD64" = "x86_64" ∧ detect_arch "aarch64" = "arm64" ∧
    detect_arch "armv7l" = "armv7l" ∧ detect_arch "" = "unknown" ∧
    detect_arch "RISCV64" = lowerStr "RISCV64" :=
  ⟨(C9_detect_arch_amended "AMD64").1 (Or.inr (by decide)),
   (C9_detect_arch_amended "aarch64").2.1 (Or.inr (by decide)),
   (C9_detect_arch_amended "armv7l").2.2.1 (by decide),
   (C9_detect_arch_amended "").2.2.2.1 (by decide),
   (C9_detect_arch_amended "RISCV64").2.2.2.2 (by decide) (by decide) (by decide)
     (by decide)⟩

/-- C1 counterexample: with a candidate set holding no generic candidate and
target x86_64, the selection returns the arm64-tagged candidate — the claim
that the selection is generic "even when the candidate set contains no
generic candidate at all" fails. -/
theorem C1_counterexample :
    find_script_for_arch ["main-v2.6-arm64"] "x86_64" = .ok "main-v2.6-arm64" ∧
    isArchTaggedName "main-v2.6-arm64" = true :=
  ⟨rfl, rfl⟩

/-- C1 (amended): for x86_64 or armv7l targets, whenever the candidate set
contains at least one generic candidate the selection returns a generic
candidate, and on the example set {main-v2.5, main-v2.6, main-v2.6-arm64}
with target x86_64 it returns main-v2.6; when no generic candidate exists the
code instead falls back to the full candidate set and can return an
arch-tagged one. -/
theorem C1_selector_generic_amended (files : List String) (arch : String)
    (harch : arch = "x86_64" ∨ arch = "armv7l")
    (hgen : ∃ n, n ∈ files ∧ isCandidateName n = true ∧ isArchTaggedName n = false) :
    (∃ b, find_script_for_arch files arch = .ok b ∧ isCandidateName b = true ∧
      isArchTaggedName b = false) ∧
    find_script_for_arch ["main-v2.5", "main-v2.6", "main-v2.6-arm64"] "x86_64" =
      .ok "main-v2.6" := by
  constructor
  · obtain ⟨n, hn, hc, hg⟩ := hgen
    have hmem : n ∈ files.filter isCandidateName := List.mem_filter.mpr ⟨hn, hc⟩
    rcases hall : files.filter isCandidateName with _ | ⟨a, as⟩
    · rw [hall] at hmem
      exact absurd hmem (List.not_mem_nil n)
    · rw [hall] at hmem
      have hgmem : n ∈ (a :: as).filter (fun x => !isArchTaggedName x) :=
        List.mem_filter.mpr ⟨hmem, by simp [hg]⟩
      have hgne : (a :: as).filter (fun x => !isArchTaggedName x) ≠ [] :=
        List.ne_nil_of_mem hgmem
      have harm : ¬(arch = "arm64" ∧ (a :: as).filter isArm64Name ≠ []) := by
        rintro ⟨h1, _⟩
        rcases harch with rfl | rfl
        · exact absurd h1 (by decide)
        · exact absurd h1 (by decide)
      have helig : eligibleCandidates (a :: as) arch =
          (a :: as).filter (fun x => !isArchTaggedName x) := by
        unfold eligibleCandidates
        rw [if_neg harm, if_neg hgne]
      rcases hgl : (a :: as).filter (fun x => !isArchTaggedName x) with _ | ⟨c, cs⟩
      · exact absurd hgl hgne
      · have hfs := find_script_eq_ok hall (helig.trans hgl)
        have hsm : selectBest c cs ∈ c :: cs := selectBest_mem c cs
        have hm2 : selectBest c cs ∈ (a :: as).filter (fun x => !isArchTaggedName x) := by
          rw [hgl]
          exact hsm
        refine ⟨selectBest c cs, hfs, ?_, ?_⟩
        · have h1 : selectBest c cs ∈ files.filter isCandidateName := by
            rw [hall]
            exact (List.mem_filter.mp hm2).1
          exact (List.mem_filter.mp h1).2
        · have h3 := (List.mem_filter.mp hm2).2
          simpa using h3
  · rfl

/-- C1 witness: the amended theorem applied at the example candidate set with
target x86_64. -/
theorem C1_witness :
    find_script_for_arch ["main-v2.5", "main-v2.6", "main-v2.6-arm64"] "x86_64" =
      .ok "main-v2.6" :=
  (C1_selector_generic_amended ["main-v2.5", "main-v2.6", "main-v2.6-arm64"] "x86_64"
    (Or.inl rfl) ⟨"main-v2.6", by decide, rfl, rfl⟩).2

/-- C6: for target arm64 with at least one arm64-tagged candidate, the
selection returns an arm64-tagged candidate whose parsed version is not
exceeded by any arm64-tagged candidate; on the example set it returns
main-v2.6-arm64 although a generic candidate of equal version exists. -/
theorem C6_selector_arm64 (files : List String)
    (h : ∃ n, n ∈ files ∧ isCandidateName n = true ∧ isArm64Name n = true) :
    (∃ b, find_script_for_arch files "arm64" = .ok b ∧ isCandidateName b = true ∧
      isArm64Name b = true ∧
      ∀ n, n ∈ files → isCandidateName n = true → isArm64Name n = true →
        verLt (parse_version b) (parse_version n) = false) ∧
    find_script_for_arch ["main-v2.5", "main-v2.6", "main-v2.6-arm64"] "arm64" =
      .ok "main-v2.6-arm64" := by
  constructor
  · obtain ⟨n, hn, hc, ha⟩ := h
    have hmem : n ∈ files.filter isCandidateName := List.mem_filter.mpr ⟨hn, hc⟩
    rcases hall : files.filter isCandidateName with _ | ⟨a, as⟩
    · rw [hall] at hmem
      exact absurd hmem (List.not_mem_nil n)
    · rw [hall] at hmem
      have hamem : n ∈ (a :: as).filter isArm64Name := List.mem_filter.mpr ⟨hmem, ha⟩
      have hane : (a :: as).filter isArm64Name ≠ [] := List.ne_nil_of_mem hamem
      have helig : eligibleCandidates (a :: as) "arm64" =
          (a :: as).filter isArm64Name := by
        unfold eligibleCandidates
        rw [if_pos ⟨rfl, hane⟩]
      rcases hgl : (a :: as).filter isArm64Name with _ | ⟨c, cs⟩
      · exact absurd hgl hane
      · have hfs := find_script_eq_ok hall (helig.trans hgl)
        have hsm : selectBest c cs ∈ c :: cs := selectBest_mem c cs
        have hm2 : selectBest c cs ∈ (a :: as).filter isArm64Name := by
          rw [hgl]
          exact hsm
        refine ⟨selectBest c cs, hfs, ?_, (List.mem_filter.mp hm2).2, ?_⟩
        · have h1 : selectBest c cs ∈ files.filter isCandidateName := by
            rw [hall]
            exact (List.mem_filter.mp hm2).1
          exact (List.mem_filter.mp h1).2
        · intro m hm hmc hma
          have hm3 : m ∈ files.filter isCandidateName := List.mem_filter.mpr ⟨hm, hmc⟩
          rw [hall] at hm3
          have hm4 : m ∈ (a :: as).filter isArm64Name := List.mem_filter.mpr ⟨hm3, hma⟩
          rw [hgl] at hm4
          exact selectBest_not_lt c cs m hm4
  · rfl

/-- C6 witness: the theorem applied at the example candidate set. -/
theorem C6_witness :
    find_script_for_arch ["main-v2.5", "main-v2.6", "main-v2.6-arm64"] "arm64" =
      .ok "main-v2.6-arm64" :=
  (C6_selector_arm64 ["main-v2.5", "main-v2.6", "main-v2.6-arm64"]
    ⟨"main-v2.6-arm64", by decide, rfl, rfl⟩).2

/-- C8: a directory with no candidate file (no name starting with main-v)
makes `find_script_for_arch` fail with NoBuildFound and never yields a
candidate; in a (non-dry) run this failure propagates to the top-level
handler, which exits with failure status 1. -/
theorem C8_no_build_found (repoFiles : List String) (arch : String)
    (h : ∀ n ∈ repoFiles, isCandidateName n = false) :
    find_script_for_arch repoFiles arch = .error .noBuildFound ∧
    ∀ existing probe args answer, args.dryRun = false →
      programExit existing probe repoFiles arch args answer = 1 := by
  have hfil : repoFiles.filter isCandidateName = [] := by
    rw [List.filter_eq_nil_iff]
    intro n hn
    simp [h n hn]
  refine ⟨find_script_eq_err hfil, ?_⟩
  intro existing probe args answer hdry
  unfold programExit mainRun selectLatest
  rw [hdry, if_neg Bool.false_ne_true, find_script_eq_err hfil]

/-- C8 witness: the theorem applied at a directory listing with no candidate
file and a non-dry run. -/
theorem C8_witness :
    find_script_for_arch ["README.md"] "x86_64" = .error .noBuildFound ∧
    programExit [] (fun _ => (0, 0, 0)) ["README.md"] "x86_64"
      ⟨false, false, false, false⟩ "" = 1 :=
  ⟨(C8_no_build_found ["README.md"] "x86_64" (by decide)).1,
   (C8_no_build_found ["README.md"] "x86_64" (by decide)).2 [] (fun _ => (0, 0, 0))
     ⟨false, false, false, false⟩ "" rfl⟩

lemma mainRun_eq (existing : List String) (probe : String → Version)
    (repoFiles : List String) (arch : String) (args : Args) (answer : String)
    {latest : String} {lv : Version}
    (hsel : selectLatest args.dryRun repoFiles arch = .ok (latest, lv)) :
    mainRun existing probe repoFiles arch args answer =
      .ok (decideAndTransition existing
        (match existing with | [] => (0, 0, 0) | p :: _ => probe p)
        args answer latest lv) := by
  unfold mainRun
  rw [hsel]

lemma mainRun_nil_eq (probe : String → Version) (repoFiles : List String)
    (arch : String) (args : Args) (answer : String) {latest : String} {lv : Version}
    (hsel : selectLatest args.dryRun repoFiles arch = .ok (latest, lv)) :
    mainRun [] probe repoFiles arch args answer =
      .ok (decideAndTransition [] (0, 0, 0) args answer latest lv) :=
  mainRun_eq [] probe repoFiles arch args answer hsel

lemma mainRun_cons_eq (p : String) (rest : List String) (probe : String → Version)
    (repoFiles : List String) (arch : String) (args : Args) (answer : String)
    {latest : String} {lv : Version}
    (hsel : selectLatest args.dryRun repoFiles arch = .ok (latest, lv)) :
    mainRun (p :: rest) probe repoFiles arch args answer =
      .ok (decideAndTransition (p :: rest) (probe p) args answer latest lv) :=
  mainRun_eq (p :: rest) probe repoFiles arch args answer hsel

lemma mainRun_err (existing : List String) (probe : String → Version)
    (repoFiles : List String) (arch : String) (args : Args) (answer : String)
    {e : InstallError}
    (hsel : selectLatest args.dryRun repoFiles arch = .error e) :
    mainRun existing probe repoFiles arch args answer = .error e := by
  unfold mainRun
  rw [hsel]

lemma runFsEffects_ok (r : RunResult) : runFsEffects (.ok r) = (r.removed, r.written) := rfl

lemma needsPrompt_zero (args : Args) : needsPrompt (0, 0, 0) args = false := by
  simp [needsPrompt]

lemma needsPrompt_eq_true {iv : Version} {args : Args} (h1 : iv ≠ (0, 0, 0))
    (h2 : args.update = false) (h3 : args.force = false) (h4 : args.dryRun = false) :
    needsPrompt iv args = true := by
  simp [needsPrompt, h2, h3, h4]
  exact h1

lemma decideAndTransition_dry_effects (existing : List String) (iv : Version)
    (args : Args) (answer : String) (latest : String) (lv : Version)
    (hdry : args.dryRun = true) :
    (decideAndTransition existing iv args answer latest lv).removed = [] ∧
    (decideAndTransition existing iv args answer latest lv).written = none := by
  unfold decideAndTransition
  split
  · exact ⟨rfl, rfl⟩
  · split
    · exact ⟨rfl, rfl⟩
    · simp [hdry]

lemma decideAndTransition_uninstallArg (existing : List String) (iv : Version)
    (args : Args) (answer : String) (latest : String) (lv : Version)
    (h1 : (decideAndTransition existing iv args answer latest lv).decision ≠ .upToDate)
    (h2 : (decideAndTransition existing iv args answer latest lv).decision ≠
      .newerInstalledThanRemote)
    (h3 : (decideAndTransition existing iv args answer latest lv).decision ≠ .skipped) :
    (decideAndTransition existing iv args answer latest lv).uninstallArg = existing := by
  by_cases hg : verLt iv lv = false ∧ args.force = false
  · exfalso
    by_cases hiv : iv = lv
    · apply h1
      unfold decideAndTransition
      rw [if_pos hg, if_pos hiv]
    · apply h2
      unfold decideAndTransition
      rw [if_pos hg, if_neg hiv]
  · by_cases hdc : needsPrompt iv args = true ∧ isNoAnswer answer = true
    · exfalso
      apply h3
      unfold decideAndTransition
      rw [if_neg hg, if_pos hdc]
    · unfold decideAndTransition
      rw [if_neg hg, if_neg hdc]

/-- C3 counterexample: with no existing installation but a candidate whose
name parses to the sentinel (0,0,0) and force unset, the run takes the
up-to-date branch and installs nothing, instead of the claimed
FreshInstall. -/
theorem C3_counterexample :
    mainRun [] (fun _ => (0, 0, 0)) ["main-vX"] "x86_64"
      ⟨false, false, false, false⟩ "" =
      .ok { decision := .upToDate, selected := "main-vX", latestVer := (0, 0, 0),
            prompted := false, uninstallArg := [], removed := [], written := none } ∧
    Decision.upToDate ≠ Decision.freshInstall :=
  ⟨rfl, by decide⟩

/-- C3 (amended): when no existing installation is discovered, the decision
is FreshInstall and the run proceeds to the install step (actually writing
the artifact unless dry-run), for every force/update/dryRun combination —
provided the latest version is not the sentinel (0,0,0) or force is set;
when the best candidate parses to (0,0,0) and force is unset, the run
instead reports up-to-date and installs nothing. -/
theorem C3_fresh_install_amended (probe : String → Version) (repoFiles : List String)
    (arch : String) (args : Args) (answer : String) (latest : String) (lv : Version)
    (hsel : selectLatest args.dryRun repoFiles arch = .ok (latest, lv))
    (hlv : lv ≠ (0, 0, 0) ∨ args.force = true) :
    mainRun [] probe repoFiles arch args answer =
      .ok { decision := .freshInstall, selected := latest, latestVer := lv,
            prompted := false, uninstallArg := [], removed := [],
            written := if args.dryRun = true then none else some latest } := by
  rw [mainRun_nil_eq probe repoFiles arch args answer hsel]
  unfold decideAndTransition
  have hgate : ¬(verLt (0, 0, 0) lv = false ∧ args.force = false) := by
    rintro ⟨hg1, hg2⟩
    rcases hlv with hlv | hlv
    · rw [verLt_zero_of_ne hlv] at hg1
      cases hg1
    · rw [hlv] at hg2
      cases hg2
  rw [if_neg hgate, needsPrompt_zero,
      if_neg (fun hcon => Bool.false_ne_true hcon.1)]
  simp

/-- C3 witness: the amended theorem applied at a concrete fresh-install
configuration. -/
theorem C3_witness :
    mainRun [] (fun _ => (0, 0, 0)) ["main-v2.6"] "x86_64"
      ⟨false, false, false, false⟩ "" =
      .ok { decision := .freshInstall, selected := "main-v2.6",
            latestVer := (2, 6, 0), prompted := false, uninstallArg := [],
            removed := [], written := some "main-v2.6" } := by
  exact C3_fresh_install_amended (fun _ => (0, 0, 0)) ["main-v2.6"] "x86_64"
    ⟨false, false, false, false⟩ "" "main-v2.6" (2, 6, 0) rfl (Or.inl (by decide))

/-- C4 counterexample: an existing installation whose version probe yields
the sentinel (0,0,0) — strictly below the latest (2,6,0) — with force,
update and dry-run all unset is upgraded without any prompt (decision
UpgradeAvailable, prompted = false), and even the declining answer "n" does
not yield Skipped: the claim's RequiresConfirmation branch is bypassed. -/
theorem C4_counterexample :
    mainRun ["/usr/local/bin/ai"] (fun _ => (0, 0, 0)) ["main-v2.6"] "x86_64"
      ⟨false, false, false, false⟩ "n" =
      .ok { decision := .upgradeAvailable, selected := "main-v2.6",
            latestVer := (2, 6, 0), prompted := false,
            uninstallArg := ["/usr/local/bin/ai"],
            removed := ["/usr/local/bin/ai"], written := some "main-v2.6" } ∧
    Decision.upgradeAvailable ≠ Decision.requiresConfirmation :=
  ⟨rfl, by decide⟩

/-- C4 (amended): when the first discovered instance's probed version is
strictly less than the latest version, is not the sentinel (0,0,0), and
force is unset: with update or dry-run set the transition proceeds without
prompting (UpgradeAvailable); otherwise the user is prompted, a declining
answer (n/no) yields Skipped with no instance removed and no artifact
written, and any other answer proceeds as a confirmed upgrade
(RequiresConfirmation).  When the probe yields the sentinel, the prompt is
bypassed (see the counterexample). -/
theorem C4_upgrade_prompt_amended (p : String) (rest : List String)
    (probe : String → Version) (repoFiles : List String) (arch : String)
    (args : Args) (answer : String) (latest : String) (lv : Version)
    (hsel : selectLatest args.dryRun repoFiles arch = .ok (latest, lv))
    (hforce : args.force = false)
    (hiv : probe p ≠ (0, 0, 0))
    (hlt : verLt (probe p) lv = true) :
    (args.update = true ∨ args.dryRun = true →
      mainRun (p :: rest) probe repoFiles arch args answer =
        .ok { decision := .upgradeAvailable, selected := latest, latestVer := lv,
              prompted := false, uninstallArg := p :: rest,
              removed := if args.dryRun = true then [] else p :: rest,
              written := if args.dryRun = true then none else some latest }) ∧
    (args.update = false → args.dryRun = false →
      (isNoAnswer answer = true →
        mainRun (p :: rest) probe repoFiles arch args answer =
          .ok { decision := .skipped, selected := latest, latestVer := lv,
                prompted := true, uninstallArg := [], removed := [],
                written := none }) ∧
      (isNoAnswer answer = false →
        mainRun (p :: rest) probe repoFiles arch args answer =
          .ok { decision := .requiresConfirmation, selected := latest,
                latestVer := lv, prompted := true, uninstallArg := p :: rest,
                removed := p :: rest, written := some latest })) := by
  have hgate : ¬(verLt (probe p) lv = false ∧ args.force = false) := by
    rintro ⟨hg, _⟩
    rw [hlt] at hg
    cases hg
  constructor
  · intro hud
    rw [mainRun_cons_eq p rest probe repoFiles arch args answer hsel]
    unfold decideAndTransition
    have hnp : needsPrompt (probe p) args = false := by
      rcases hud with h | h <;> simp [needsPrompt, h]
    rw [if_neg hgate, hnp,
        if_neg (fun hcon => Bool.false_ne_true hcon.1),
        if_neg (List.cons_ne_nil p rest),
        if_neg (fun hcon => Bool.false_ne_true (hforce ▸ hcon)),
        if_neg (fun hcon => Bool.false_ne_true hcon)]
  · intro hupd hdry
    have hnp : needsPrompt (probe p) args = true :=
      needsPrompt_eq_true hiv hupd hforce hdry
    constructor
    · intro hno
      rw [mainRun_cons_eq p rest probe repoFiles arch args answer hsel]
      unfold decideAndTransition
      rw [if_neg hgate, if_pos ⟨hnp, hno⟩]
    · intro hno
      rw [mainRun_cons_eq p rest probe repoFiles arch args answer hsel]
      unfold decideAndTransition
      rw [if_neg hgate,
          if_neg (fun hcon => Bool.eq_false_iff.mp hno hcon.2),
          if_neg (List.cons_ne_nil p rest),
          if_neg (fun hcon => Bool.false_ne_true (hforce ▸ hcon)),
          if_pos hnp, hnp, hdry]
      simp

/-- C4 witness: the amended theorem applied at a concrete configuration where
the user declines the prompt. -/
theorem C4_witness :
    mainRun ["/usr/local/bin/ai"] (fun _ => (2, 5, 0)) ["main-v2.6"] "x86_64"
      ⟨false, false, false, false⟩ "n" =
      .ok { decision := .skipped, selected := "main-v2.6", latestVer := (2, 6, 0),
            prompted := true, uninstallArg := [], removed := [],
            written := none } :=
  ((C4_upgrade_prompt_amended "/usr/local/bin/ai" [] (fun _ => (2, 5, 0))
    ["main-v2.6"] "x86_64" ⟨false, false, false, false⟩ "n" "main-v2.6" (2, 6, 0)
    rfl rfl (by decide) (by decide)).2 rfl rfl).1 rfl

/-- C5: when the first discovered instance reports a version greater than or
equal to the latest and force is unset, the decision is UpToDate (equal) or
NewerInstalledThanRemote (greater), and no instance is uninstalled and no
artifact is written. -/
theorem C5_up_to_date (p : String) (rest : List String) (probe : String → Version)
    (repoFiles : List String) (arch : String) (args : Args) (answer : String)
    (latest : String) (lv : Version)
    (hsel : selectLatest args.dryRun repoFiles arch = .ok (latest, lv))
    (hforce : args.force = false)
    (hge : verLt (probe p) lv = false) :
    mainRun (p :: rest) probe repoFiles arch args answer =
      .ok { decision := if probe p = lv then .upToDate else .newerInstalledThanRemote,
            selected := latest, latestVer := lv, prompted := false,
            uninstallArg := [], removed := [], written := none } := by
  rw [mainRun_cons_eq p rest probe repoFiles arch args answer hsel]
  unfold decideAndTransition
  rw [if_pos ⟨hge, hforce⟩]

/-- C5 witness: the theorem applied at an up-to-date configuration. -/
theorem C5_witness :
    mainRun ["/usr/local/bin/ai"] (fun _ => (2, 6, 0)) ["main-v2.6"] "x86_64"
      ⟨false, false, false, false⟩ "" =
      .ok { decision := .upToDate, selected := "main-v2.6", latestVer := (2, 6, 0),
            prompted := false, uninstallArg := [], removed := [],
            written := none } := by
  have h := C5_up_to_date "/usr/local/bin/ai" [] (fun _ => (2, 6, 0)) ["main-v2.6"]
    "x86_64" ⟨false, false, false, false⟩ "" "main-v2.6" (2, 6, 0) rfl rfl (by decide)
  simpa using h

/-- C2 counterexample: on the same inputs (installed 2.5.5, repo offering
main-v2.5), the dry run and the real run take different decision branches
with different latest versions — the dry run hardcodes latest (2,6,0) and
proceeds as an upgrade, while the real run computes latest (2,5,0) and stops
with NewerInstalledThanRemote. -/
theorem C2_counterexample :
    mainRun ["/usr/local/bin/ai"] (fun _ => (2, 5, 5)) ["main-v2.5"] "x86_64"
      ⟨false, false, true, false⟩ "" =
      .ok { decision := .upgradeAvailable, selected := "main-v2.6",
            latestVer := (2, 6, 0), prompted := false,
            uninstallArg := ["/usr/local/bin/ai"], removed := [],
            written := none } ∧
    mainRun ["/usr/local/bin/ai"] (fun _ => (2, 5, 5)) ["main-v2.5"] "x86_64"
      ⟨false, false, false, false⟩ "" =
      .ok { decision := .newerInstalledThanRemote, selected := "main-v2.5",
            latestVer := (2, 5, 0), prompted := false, uninstallArg := [],
            removed := [], written := none } ∧
    Decision.upgradeAvailable ≠ Decision.newerInstalledThanRemote :=
  ⟨rfl, rfl, by decide⟩

/-- C2 (amended): a dry run leaves the filesystem unchanged — no discovered
instance is removed and no artifact is written — but its decision trace need
not match the real run's: dry-run hardcodes the latest version to (2,6,0)
with a synthetic build name and skips the confirmation prompt, so the
decision branch and computed latest version can differ (see the
counterexample). -/
theorem C2_dry_run_amended (existing : List String) (probe : String → Version)
    (repoFiles : List String) (arch : String) (args : Args) (answer : String)
    (hdry : args.dryRun = true) :
    runFsEffects (mainRun existing probe repoFiles arch args answer) = ([], none) := by
  have hsel : selectLatest args.dryRun repoFiles arch =
      .ok ((if arch = "arm64" then "main-v2.6-arm64" else "main-v2.6"), (2, 6, 0)) := by
    unfold selectLatest
    rw [hdry, if_pos rfl]
  rw [mainRun_eq existing probe repoFiles arch args answer hsel, runFsEffects_ok]
  have h := decideAndTransition_dry_effects existing
    (match existing with | [] => (0, 0, 0) | p :: _ => probe p) args answer
    (if arch = "arm64" then "main-v2.6-arm64" else "main-v2.6") (2, 6, 0) hdry
  rw [h.1, h.2]

/-- C2 witness: the amended theorem applied at a concrete dry run. -/
theorem C2_witness :
    runFsEffects (mainRun ["/usr/local/bin/ai"] (fun _ => (2, 5, 5)) ["main-v2.5"]
      "x86_64" ⟨false, false, true, false⟩ "") = ([], none) :=
  C2_dry_run_amended ["/usr/local/bin/ai"] (fun _ => (2, 5, 5)) ["main-v2.5"]
    "x86_64" ⟨false, false, true, false⟩ "" rfl

/-- C10: the run result depends only on the version probe of the first
discovered instance (two probes agreeing on the head yield identical runs,
so the remaining instances' versions are never consulted), yet whenever the
transition proceeds past the no-mutation decisions, the full list of
discovered instances is passed to the uninstall step. -/
theorem C10_first_probe_all_uninstalled (p : String) (rest : List String)
    (probe1 probe2 : String → Version) (repoFiles : List String) (arch : String)
    (args : Args) (answer : String) (hp : probe1 p = probe2 p) :
    mainRun (p :: rest) probe1 repoFiles arch args answer =
      mainRun (p :: rest) probe2 repoFiles arch args answer ∧
    (∀ r, mainRun (p :: rest) probe1 repoFiles arch args answer = .ok r →
      r.decision ≠ .upToDate → r.decision ≠ .newerInstalledThanRemote →
      r.decision ≠ .skipped → r.uninstallArg = p :: rest) := by
  constructor
  · simp only [mainRun]
    rw [hp]
  · intro r hr hd1 hd2 hd3
    rcases hsel : selectLatest args.dryRun repoFiles arch with e | ⟨latest, lv⟩
    · rw [mainRun_err (p :: rest) probe1 repoFiles arch args answer hsel] at hr
      cases hr
    · rw [mainRun_cons_eq p rest probe1 repoFiles arch args answer hsel] at hr
      injection hr with hr
      subst hr
      exact decideAndTransition_uninstallArg (p :: rest) (probe1 p) args answer
        latest lv hd1 hd2 hd3

/-- C10 witness: two probe oracles agreeing on the first discovered instance
yield identical runs. -/
theorem C10_witness :
    mainRun ["/usr/local/bin/ai", "/usr/bin/ai"] (fun _ => (2, 5, 0))
        ["main-v2.6"] "x86_64" ⟨false, false, false, false⟩ "" =
      mainRun ["/usr/local/bin/ai", "/usr/bin/ai"]
        (fun s => if s = "/usr/local/bin/ai" then (2, 5, 0) else (9, 9, 9))
        ["main-v2.6"] "x86_64" ⟨false, false, false, false⟩ "" :=
  (C10_first_probe_all_uninstalled "/usr/local/bin/ai" ["/usr/bin/ai"]
    (fun _ => (2, 5, 0))
    (fun s => if s = "/usr/local/bin/ai" then (2, 5, 0) else (9, 9, 9))
    ["main-v2.6"] "x86_64" ⟨false, false, false, false⟩ "" (by decide)).1
